import Mathlib

/-!
Shallow embedding of the agent-eval evaluation and continuous-improvement
pipeline (`src/models.py`, `src/evaluation/evaluators/base.py`,
`src/evaluation/service.py`, `src/analysis/utils.py`, `src/analysis/adapter.py`,
`src/analysis/clustering.py`, `src/analysis/regression.py`,
`src/evaluation/evaluators/tool_call.py`).

Modelling conventions:
- Python floats are embedded as exact rationals (ℚ); numeric literals such as
  0.70 and 0.15 become 7/10 and 3/20.
- Python dicts (insertion-ordered, last assignment wins, keys unique) are
  embedded as association lists with an insert-or-overwrite operation
  `dictInsert` preserving insertion order.
- numpy vectors (fixed length, here the 1536-dimensional embeddings) are
  embedded as functions from a finite index type, `Fin d → ℚ`; numpy
  elementwise arithmetic becomes pointwise arithmetic.
- Exceptions are embedded with `Except String`; a function that (in Python)
  catches all exceptions and returns normally is total here.
- Wall-clock measurements (time.perf_counter latencies) and uuid4 run ids are
  nondeterministic inputs; they enter the model as explicit parameters.
- Calls to external capabilities (the LLM reasoning and embedding service, the
  filesystem, the demo agent) are outside the embedded core, in line with the
  repository treating them as collaborators; where a modelled function consumes
  their output, that output enters as an explicit function or value parameter.
-/

namespace AgentEval

/-- Insert-or-overwrite on an association list, mirroring Python dict
assignment semantics: if the key is present its value is replaced in place
(keeping its position), otherwise the pair is appended at the end. -/
def dictInsert {κ α : Type} [DecidableEq κ] : List (κ × α) → κ → α → List (κ × α)
  | [], k, v => [(k, v)]
  | (k1, v1) :: rest, k, v =>
      if k1 = k then (k, v) :: rest else (k1, v1) :: dictInsert rest k v

/-- Lookup in an association list, mirroring Python dict indexing / `.get`. -/
def dictGet {κ α : Type} [DecidableEq κ] : List (κ × α) → κ → Option α
  | [], _ => none
  | (k1, v1) :: rest, k => if k1 = k then some v1 else dictGet rest k

/-- Values that appear in the metadata dicts of the pipeline: booleans,
strings and numbers (Python bool / str / float). -/
inductive MetaVal : Type
  | b (v : Bool)
  | s (v : String)
  | q (v : ℚ)
deriving DecidableEq

/-- Values that appear in an Issue's details dict in the embedded evaluators:
strings and lists of strings. -/
inductive DVal : Type
  | s (v : String)
  | ls (v : List String)
deriving DecidableEq

/-- Role in a conversation turn (src/models.py, class Role). -/
inductive Role : Type
  | user
  | assistant
  | system
deriving DecidableEq

/-- Severity level for detected issues (src/models.py, class IssueSeverity). -/
inductive IssueSeverity : Type
  | low
  | medium
  | high
  | critical
deriving DecidableEq

/-- String value of an IssueSeverity, as in the Python str-Enum. -/
def IssueSeverity.val : IssueSeverity → String
  | .low => "low"
  | .medium => "medium"
  | .high => "high"
  | .critical => "critical"

/-- Types of issues that can be detected (src/models.py, class IssueType). -/
inductive IssueType : Type
  | missing_field
  | format_error
  | latency_exceeded
  | invalid_tool
  | invalid_param
  | missing_param
  | tool_hallucination
  | execution_failed
  | context_loss
  | inconsistent_response
  | reference_error
  | low_helpfulness
  | low_factuality
  | low_quality
deriving DecidableEq

/-- String value of an IssueType, as in the Python str-Enum. -/
def IssueType.val : IssueType → String
  | .missing_field => "missing_field"
  | .format_error => "format_error"
  | .latency_exceeded => "latency_exceeded"
  | .invalid_tool => "invalid_tool"
  | .invalid_param => "invalid_param"
  | .missing_param => "missing_param"
  | .tool_hallucination => "tool_hallucination"
  | .execution_failed => "execution_failed"
  | .context_loss => "context_loss"
  | .inconsistent_response => "inconsistent_response"
  | .reference_error => "reference_error"
  | .low_helpfulness => "low_helpfulness"
  | .low_factuality => "low_factuality"
  | .low_quality => "low_quality"

/-- Result value attached to a tool call (ToolCall.result, typed Any in
src/models.py). The tool-call evaluator only distinguishes: absent (None), a
dict possibly carrying a truthy "error" entry, or anything else. -/
inductive ToolResult : Type
  | dict (errorVal : Option String)
  | nonDict
deriving DecidableEq

/-- A tool/function call made by the assistant (src/models.py, ToolCall).
Parameter values are typed Any in Python; the evaluator compares parameter
names and pattern-matches the str() rendering of values, so values are
embedded as their string rendering. -/
structure ToolCall : Type where
  tool_name : String
  parameters : List (String × String) := []
  result : Option ToolResult := none
  execution_time_ms : Option ℚ := none
deriving DecidableEq

/-- A single turn in a conversation (src/models.py, Turn). Timestamps are
not consumed by the embedded components and are omitted. -/
structure Turn : Type where
  turn_id : ℤ
  role : Role
  content : String
  tool_calls : List ToolCall := []
  latency_ms : Option ℚ := none
deriving DecidableEq

/-- A complete multi-turn conversation (src/models.py, Conversation).
created_at is not consumed by the embedded components and is omitted. -/
structure Conversation : Type where
  conversation_id : String
  turns : List Turn
  metadata : List (String × MetaVal) := []
deriving DecidableEq

/-- A detected issue (src/models.py, Issue). -/
structure Issue : Type where
  issue_type : IssueType
  severity : IssueSeverity
  description : String
  turn_id : Option ℤ := none
  details : List (String × DVal) := []
  suggested_fix : Option String := none
deriving DecidableEq

/-- Result from a single evaluator (src/models.py, EvaluatorResult). -/
structure EvaluatorResult : Type where
  evaluator_name : String
  scores : List (String × ℚ) := []
  issues : List Issue := []
  confidence : ℚ := 1
  metadata : List (String × MetaVal) := []
  latency_ms : Option ℚ := none
deriving DecidableEq

/-- Complete evaluation result for a conversation (src/models.py,
EvaluationResult). The timestamp is not consumed by the embedded components
and is omitted; evaluations is a dict keyed by evaluator name. -/
structure EvaluationResult : Type where
  conversation_id : String
  evaluations : List (String × EvaluatorResult) := []
  run_id : String := ""
  aggregate_score : ℚ := 0
  issues : List Issue := []
  status : String := "pending"
deriving DecidableEq

/-- The flat list all_scores collected by
EvaluationResult.compute_aggregate_score: every sub-score value of every
evaluator result, in dict iteration order. -/
def allScores (evaluations : List (String × EvaluatorResult)) : List ℚ :=
  evaluations.flatMap (fun p => p.2.scores.map Prod.snd)

/-- EvaluationResult.compute_aggregate_score (src/models.py lines 193-206):
returns 0.0 when there are no evaluations or no sub-scores, in which case the
stored aggregate_score field is left unchanged; otherwise stores and returns
the mean of all sub-scores. The Python method mutates self and returns the
score; the embedding returns the pair (returned score, updated record). -/
def computeAggregateScore (r : EvaluationResult) : ℚ × EvaluationResult :=
  if r.evaluations = [] then (0, r)
  else
    let all := allScores r.evaluations
    if all = [] then (0, r)
    else (all.sum / all.length, { r with aggregate_score := all.sum / all.length })

/-- EvaluationResult.aggregate_issues (src/models.py lines 208-214): rebuilds
the issues list as the concatenation of every evaluator result's issues, in
dict iteration order. (The Python isinstance guard on list/tuple is always
true in the embedding, where issues is always a list.) -/
def aggregateIssues (r : EvaluationResult) : EvaluationResult :=
  { r with issues := r.evaluations.flatMap (fun p => p.2.issues) }

/-- Evaluator.evaluate, the template method of the abstract base class
(src/evaluation/evaluators/base.py lines 24-44). The evaluator-specific logic
_evaluate may raise, embedded as inner returning Except; the measured
wall-clock latency enters as the parameter latency_ms. On success the result
is enriched with the latency; on any exception a degraded result is returned
(empty scores, empty issues, confidence 0.0, the error string and latency in
metadata) and the exception is not propagated: the embedded function is total
with return type EvaluatorResult. -/
def Evaluator.evaluate (evaluator_name : String)
    (inner : Conversation → Except String EvaluatorResult)
    (latency_ms : ℚ) (conversation : Conversation) : EvaluatorResult :=
  match inner conversation with
  | .ok result =>
      { result with
          latency_ms := some latency_ms,
          metadata := dictInsert result.metadata "latency_ms" (.q latency_ms) }
  | .error e =>
      { evaluator_name := evaluator_name,
        scores := [],
        issues := [],
        confidence := 0,
        metadata := [("error", .s e), ("latency_ms", .q latency_ms)],
        latency_ms := some latency_ms }

/-- An evaluation strategy as seen by the orchestrator: a named object whose
evaluate call may (defensively, as far as the orchestrator is concerned)
raise. Instances of the Evaluator base class never raise, by
Evaluator.evaluate above, but EvaluationService.evaluate_conversation still
wraps each call in try/except. -/
structure Strategy : Type where
  evaluator_name : String
  evaluate : Conversation → Except String EvaluatorResult

/-- EvaluationService._get_active_strategies (src/evaluation/service.py lines
38-47): resolve each enabled evaluator name through the registry, skipping
(with only a warning print) names the registry does not know. -/
def getActiveStrategies (registry : List (String × Strategy))
    (enabled_evaluators : List String) : List Strategy :=
  enabled_evaluators.filterMap (fun name => dictGet registry name)

/-- The per-strategy body of the loop in
EvaluationService.evaluate_conversation (src/evaluation/service.py lines
73-85): run the strategy; on an exception store a degraded EvaluatorResult
(empty scores and issues, confidence 0.0, error in metadata) under the
strategy's name. -/
def runStrategy (strategy : Strategy) (conversation : Conversation) : EvaluatorResult :=
  match strategy.evaluate conversation with
  | .ok r => r
  | .error e =>
      { evaluator_name := strategy.evaluator_name,
        scores := [],
        issues := [],
        confidence := 0,
        metadata := [("error", .s e)] }

/-- EvaluationService.evaluate_conversation (src/evaluation/service.py lines
57-95). The uuid4 run id enters as the parameter run_id; the repository's
save_evaluation side effect is embedded as the second component of the result:
the list of evaluation results passed to save_evaluation during the call, in
order. When no strategy is active the pending result is marked completed with
aggregate_score 0.0 and returned early, before the persistence call. -/
def evaluateConversation (strategies : List Strategy) (run_id : String)
    (conversation : Conversation) : EvaluationResult × List EvaluationResult :=
  let result : EvaluationResult :=
    { conversation_id := conversation.conversation_id,
      run_id := run_id,
      evaluations := [],
      status := "pending" }
  if strategies.isEmpty then
    ({ result with status := "completed", aggregate_score := 0 }, [])
  else
    let withEvals : EvaluationResult :=
      { result with
          evaluations := strategies.foldl
            (fun acc strategy =>
              dictInsert acc strategy.evaluator_name (runStrategy strategy conversation))
            [] }
    let scored := (computeAggregateScore withEvals).2
    let final := { aggregateIssues scored with status := "completed" }
    (final, [final])

/-- construct_embedding_string (src/analysis/utils.py lines 29-35): builds
the embedding-ready fingerprint for an issue. The source is the f-string
interpolating issue_type and description; the turn_content parameter is
accepted but not used. -/
def construct_embedding_string (issue_type : String) (description : String)
    (turn_content : String) : String :=
  "Type: " ++ issue_type ++ " | Issue: " ++ description

/-- One flattened issue occurrence, the dict built by flatten_issue
(src/analysis/adapter.py lines 27-41). -/
structure FlatIssue : Type where
  issue_type : String
  severity : String
  description : String
  turn_id : Option ℤ
  conversation_id : String
  context_content : String
  suggested_fix : Option String
  embedding_string : String
deriving DecidableEq

/-- The turn-id-to-turn dict built by flatten_issue (src/analysis/adapter.py
line 13), with Python dict comprehension semantics (later duplicate ids
overwrite earlier ones). -/
def turnMap (conversation : Conversation) : List (ℤ × Turn) :=
  conversation.turns.foldl (fun m t => dictInsert m t.turn_id t) []

/-- The context_content resolution in flatten_issue (src/analysis/adapter.py
lines 17-24): the referenced turn's content, extended with the names of any
tools used in that turn; empty when the issue has no turn id or the id is not
in the conversation. -/
def contextContent (conversation : Conversation) (issue : Issue) : String :=
  match issue.turn_id with
  | none => ""
  | some tid =>
      match dictGet (turnMap conversation) tid with
      | none => ""
      | some turn =>
          if turn.tool_calls.isEmpty then turn.content
          else turn.content ++ " | Tools used: " ++
            String.intercalate ", " (turn.tool_calls.map ToolCall.tool_name)

/-- flatten_issue (src/analysis/adapter.py lines 5-43): one flattened
occurrence per issue of the evaluation, with turn context resolved and the
embedding fingerprint built by construct_embedding_string. -/
def flatten_issue (evaluation : EvaluationResult) (conversation : Conversation) :
    List FlatIssue :=
  evaluation.issues.map (fun issue =>
    let context := contextContent conversation issue
    { issue_type := issue.issue_type.val,
      severity := issue.severity.val,
      description := issue.description,
      turn_id := issue.turn_id,
      conversation_id := evaluation.conversation_id,
      context_content := context,
      suggested_fix := issue.suggested_fix,
      embedding_string := construct_embedding_string issue.issue_type.val issue.description context })

/-- An issue occurrence as consumed by ClusteringEngine.cluster_issues: the
flattened dict together with its embedding vector. The claims about
clustering concern inputs whose embedding is already present, so the
embedding-generation step of cluster_issues (src/analysis/clustering.py lines
29-31, a call to the external embedding capability guarded by the key already
being present) is a no-op on these inputs and the embedding is a plain field
here. Only the fields cluster_issues reads are kept. -/
structure ClusterItem (d : ℕ) : Type where
  conversation_id : String
  issue_type : String
  description : String
  embedding : Fin d → ℚ

/-- The zero-vector test np.all(a == 0) used by cosine_similarity
(src/analysis/clustering.py line 12). -/
def isZeroVec {d : ℕ} (v : Fin d → ℚ) : Bool :=
  decide (∀ i, v i = 0)

/-- Dot product np.dot(a, b) of two embedding vectors. The squared Euclidean
norm np.linalg.norm(a) squared is dotQ a a. -/
def dotQ {d : ℕ} (a b : Fin d → ℚ) : ℚ :=
  ∑ i, a i * b i

/-- cosine_similarity (src/analysis/clustering.py lines 8-14) as a real
number: 0.0 when either vector is all zeros (the explicit guard in the
source, so the zero norm is never divided by), otherwise
dot(a,b) / (norm(a) * norm(b)). Stated over ℝ because the norms are square
roots; the executable clustering code below uses the equivalent exact
rational comparison cosSimGE, and cosSimGE_iff proves the equivalence. -/
noncomputable def cosine_similarity {d : ℕ} (v1 v2 : Fin d → ℚ) : ℝ :=
  if isZeroVec v1 || isZeroVec v2 then 0
  else (dotQ v1 v2 : ℝ) / (Real.sqrt (dotQ v1 v1) * Real.sqrt (dotQ v2 v2))

/-- The comparison cosine_similarity v1 v2 >= t performed by
ClusteringEngine.cluster_issues (src/analysis/clustering.py lines 40-41),
embedded in exact rational arithmetic. When either vector is all zeros the
similarity is the literal 0.0 of the source's guard, and the test is 0 >= t;
otherwise square roots are eliminated by squaring: for a positive threshold,
dot / (norm * norm) >= t holds iff dot >= 0 and t^2 * normsq1 * normsq2 <=
dot^2. The theorem cosSimGE_iff proves this Boolean equal to the real-valued
comparison on cosine_similarity for every positive threshold. -/
def cosSimGE {d : ℕ} (v1 v2 : Fin d → ℚ) (t : ℚ) : Bool :=
  if isZeroVec v1 || isZeroVec v2 then decide (t ≤ 0)
  else decide (0 ≤ dotQ v1 v2 ∧ t ^ 2 * (dotQ v1 v1 * dotQ v2 v2) ≤ dotQ v1 v2 ^ 2)

/-- The default similarity threshold of ClusteringEngine
(src/analysis/clustering.py line 19), the float 0.70. -/
def default_similarity_threshold : ℚ := 7 / 10

/-- An issue cluster as built and read by the clustering engine: the fields
of IssueCluster (src/analysis/models.py lines 20-30) that cluster_issues and
_add_to_cluster touch, with the metadata entries mean_embedding, issue_types
and descriptions lifted to typed fields. The Python issue_types set is
embedded as its insertion-ordered member list (set semantics matter only
through membership; no embedded code reads its order). Enrichment
(label, explanation, severity, significance_score, via the external
reasoning capability in _enrich_cluster) does not touch these fields. -/
structure EmbCluster (d : ℕ) : Type where
  conversation_ids : List String
  mean_embedding : Fin d → ℚ
  issue_types : List String
  descriptions : List String

/-- Insertion into the Python set cluster.metadata["issue_types"]: a no-op on
members already present. -/
def setAdd (s : List String) (x : String) : List String :=
  if x ∈ s then s else s ++ [x]

/-- ClusteringEngine._add_to_cluster (src/analysis/clustering.py lines
65-75): append the occurrence's conversation id and description, add its
issue type, and update the running mean embedding to
(prev_mean * (n - 1) + curr_vec) / n where n is the new member count. -/
def addToCluster {d : ℕ} (cluster : EmbCluster d) (item : ClusterItem d) :
    EmbCluster d :=
  let ids := cluster.conversation_ids ++ [item.conversation_id]
  let n : ℚ := ids.length
  { conversation_ids := ids,
    descriptions := cluster.descriptions ++ [item.description],
    issue_types := setAdd cluster.issue_types item.issue_type,
    mean_embedding := fun i =>
      (cluster.mean_embedding i * (n - 1) + item.embedding i) / n }

/-- The new singleton cluster opened by cluster_issues when no existing
cluster is similar enough (src/analysis/clustering.py lines 47-56). -/
def newClusterOf {d : ℕ} (item : ClusterItem d) : EmbCluster d :=
  { conversation_ids := [item.conversation_id],
    mean_embedding := item.embedding,
    issue_types := [item.issue_type],
    descriptions := [item.description] }

/-- The inner loop of cluster_issues for one occurrence
(src/analysis/clustering.py lines 36-56): scan the existing clusters in
order, add the occurrence to the first one whose mean embedding passes the
similarity threshold, and open a new singleton cluster at the end of the
list when none does. -/
def assignItem {d : ℕ} (t : ℚ) : List (EmbCluster d) → ClusterItem d → List (EmbCluster d)
  | [], item => [newClusterOf item]
  | cluster :: rest, item =>
      if cosSimGE item.embedding cluster.mean_embedding t then
        addToCluster cluster item :: rest
      else
        cluster :: assignItem t rest item

/-- ClusteringEngine.cluster_issues (src/analysis/clustering.py lines 23-63)
on occurrences carrying precomputed embeddings: greedy single-pass first-fit
assignment in input order, starting from no clusters. The subsequent
enrichment pass (_enrich_cluster, lines 58-61 and 77-117) only fills label,
explanation, severity and significance via the external reasoning capability
and leaves membership (conversation_ids, issue_types, descriptions,
mean_embedding) untouched, so it is outside this embedding. -/
def cluster_issues {d : ℕ} (t : ℚ) (flattened_issues : List (ClusterItem d)) :
    List (EmbCluster d) :=
  flattened_issues.foldl (assignItem t) []

/-- Proposal status (src/analysis/models.py, class ProposalStatus). -/
inductive ProposalStatus : Type
  | draft
  | testing
  | approved
  | rejected
  | deployed
deriving DecidableEq

/-- Improvement type (src/analysis/models.py, class ImprovementType). -/
inductive ImprovementType : Type
  | prompt
  | tool
deriving DecidableEq

/-- Metric comparison between base and shadow runs (src/analysis/models.py,
ScoreDelta). The optional confidence_interval is never set by the embedded
code and is omitted. -/
structure ScoreDelta : Type where
  metric_name : String
  old_val : ℚ
  new_val : ℚ
  is_improvement : Bool
deriving DecidableEq

/-- Complete regression test results (src/analysis/models.py,
RegressionReport). The uuid run id enters as a field set by callers; the
timestamp is omitted. -/
structure RegressionReport : Type where
  run_id : String := ""
  test_case_count : ℕ := 0
  score_deltas : List ScoreDelta := []
  overall_improvement : Bool := false
  details : List (String × MetaVal) := []
deriving DecidableEq

/-- An improvement proposal (src/analysis/models.py, ImprovementProposal),
with the fields the regression tester reads; timestamps omitted. -/
structure ImprovementProposal : Type where
  proposal_id : String := ""
  type : ImprovementType := .prompt
  cluster_id : Option String := none
  failure_pattern : String := ""
  rationale : String := ""
  original_content : String := ""
  proposed_content : String := ""
  evidence_ids : List String := []
  status : ProposalStatus := .draft
  regression_report : Option RegressionReport := none
  metadata : List (String × MetaVal) := []
deriving DecidableEq

/-- Python truthiness of a metadata value, used by the if guards on
proposal.metadata.get(...) in _simulate_shadow_conversation. -/
def MetaVal.truthy : MetaVal → Bool
  | .b v => v
  | .s v => v ≠ ""
  | .q v => v ≠ 0

/-- The simulated improvement factor hardcoded for tool-typed proposals in
_simulate_shadow_conversation (src/analysis/regression.py line 128), the
float 0.15. -/
def simulated_improvement_factor : ℚ := 3 / 20

/-- RegressionTester._simulate_shadow_conversation (src/analysis/regression.py
lines 108-134): a copy of the conversation with unchanged turns, metadata
tagged is_shadow and prompt_version proposed, artifact paths carried over
from the proposal metadata when truthy, and — only for tool-typed proposals —
tool_schema_fixed and the simulated improvement factor. -/
def simulateShadowConversation (proposal : ImprovementProposal)
    (original : Conversation) : Conversation :=
  let md0 := dictInsert
    (dictInsert original.metadata "is_shadow" (.b true))
    "prompt_version" (.s "proposed")
  let md1 :=
    match dictGet proposal.metadata "prompt_path" with
    | some v => if v.truthy then dictInsert md0 "prompt_path" v else md0
    | none => md0
  let md2 :=
    match dictGet proposal.metadata "tool_schema_path" with
    | some v => if v.truthy then dictInsert md1 "tool_schema_path" v else md1
    | none => md1
  let md3 :=
    if proposal.type = .tool then
      dictInsert (dictInsert md2 "tool_schema_fixed" (.b true))
        "simulated_improvement_factor" (.q simulated_improvement_factor)
    else md2
  { conversation_id := "shadow_" ++ original.conversation_id,
    turns := original.turns,
    metadata := md3 }

/-- The read c.metadata.get("simulated_improvement_factor", 0.0) performed by
_calculate_deltas (src/analysis/regression.py line 154): the stored number,
0.0 when the key is absent. (The embedded pipeline only ever stores a number
under this key; a non-numeric value would make the Python arithmetic raise
and is not modelled.) -/
def simulatedFactorOf (c : Conversation) : ℚ :=
  match dictGet c.metadata "simulated_improvement_factor" with
  | some (.q x) => x
  | _ => 0

/-- Python max over a list, defined on nonempty lists (Python raises on an
empty list; the embedded call site guards with the list being nonempty). -/
def pyMax : List ℚ → ℚ
  | [] => 0
  | x :: xs => xs.foldl max x

/-- Python round to the nearest integer with ties to even (banker's
rounding), on exact rationals. -/
def roundHalfToEven (q : ℚ) : ℤ :=
  let f := ⌊q⌋
  let r := q - f
  if r < 1 / 2 then f
  else if 1 / 2 < r then f + 1
  else if f % 2 = 0 then f else f + 1

/-- Python round(x, 3) used when storing ScoreDelta values
(src/analysis/regression.py lines 101-102 and 164-165), modelled as exact
decimal rounding of the rational to three places, ties to even. -/
def pyRound3 (q : ℚ) : ℚ :=
  (roundHalfToEven (q * 1000) : ℚ) / 1000

/-- Python mean sum(vals) / len(vals) guarded to 0.0 on an empty list, as in
src/analysis/regression.py lines 150-151. -/
def meanOr0 (vals : List ℚ) : ℚ :=
  if vals = [] then 0 else vals.sum / vals.length

/-- RegressionTester._calculate_deltas (src/analysis/regression.py lines
136-169): one ScoreDelta for the single metric aggregate_score. The baseline
mean is taken over the non-None baseline evaluations, the shadow mean over
the shadow evaluations; when the shadow conversation list is nonempty the
shadow mean is multiplied by one plus the largest simulated improvement
factor found in the shadow conversations' metadata and capped at 1.0. A
metric is improved iff the (boosted, capped) shadow mean strictly exceeds
the baseline mean; stored values are rounded to three places. -/
def calculateDeltas (base_list : List (Option EvaluationResult))
    (shadow_list : List EvaluationResult)
    (shadow_convs : List Conversation) : List ScoreDelta :=
  let base_vals := (base_list.filterMap id).map EvaluationResult.aggregate_score
  let shadow_vals := shadow_list.map EvaluationResult.aggregate_score
  let avg_base := meanOr0 base_vals
  let avg_shadow0 := meanOr0 shadow_vals
  let boosts := shadow_convs.map simulatedFactorOf
  let avg_shadow :=
    if boosts = [] then avg_shadow0
    else min 1 (avg_shadow0 * (1 + pyMax boosts))
  [{ metric_name := "aggregate_score",
     old_val := pyRound3 avg_base,
     new_val := pyRound3 avg_shadow,
     is_improvement := decide (avg_base < avg_shadow) }]

/-- RegressionTester.run_regression (src/analysis/regression.py lines 15-41),
simulated mode. The injected evaluation service enters as the two functions
getEval (its get_evaluation repository read) and evalConv (its
evaluate_conversation); the report's uuid run id enters as run_id. -/
def run_regression (getEval : String → Option EvaluationResult)
    (evalConv : Conversation → EvaluationResult) (run_id : String)
    (proposal : ImprovementProposal) (test_set : List Conversation) :
    RegressionReport :=
  let shadow_conversations := test_set.map (simulateShadowConversation proposal)
  let base_evals := test_set.map (fun c => getEval c.conversation_id)
  let shadow_evals := shadow_conversations.map evalConv
  let deltas := calculateDeltas base_evals shadow_evals shadow_conversations
  { run_id := run_id,
    test_case_count := test_set.length,
    details := [("proposal_id", .s proposal.proposal_id)],
    score_deltas := deltas,
    overall_improvement := deltas.any ScoreDelta.is_improvement }

/-- RegressionTester.run_real_regression (src/analysis/regression.py lines
43-106). The two run_batch invocations (demo-agent generation, ingestion,
evaluation, and the artifact file swapping around them) are calls to external
collaborators; their resulting mean aggregate scores enter as the parameters
base_avg and updated_avg. This embeds the report assembly at lines 58-61 and
97-106: a single aggregate_score delta with three-place-rounded values,
improved iff the updated mean strictly exceeds the baseline mean, and the
overall flag equal to that same comparison. -/
def runRealRegressionReport (run_id : String) (proposal : ImprovementProposal)
    (prompts : List String) (base_avg updated_avg : ℚ) : RegressionReport :=
  { run_id := run_id,
    test_case_count := prompts.length,
    details := [("proposal_id", .s proposal.proposal_id), ("mode", .s "real")],
    score_deltas := [{ metric_name := "aggregate_score",
                       old_val := pyRound3 base_avg,
                       new_val := pyRound3 updated_avg,
                       is_improvement := decide (base_avg < updated_avg) }],
    overall_improvement := decide (base_avg < updated_avg) }

/-- A tool schema entry as consumed by the tool-call evaluator
(src/evaluation/evaluators/tool_call.py): required and optional parameter
names and regex patterns for selected parameters. The .get defaults of the
source (missing dict keys default to empty) are the field defaults here. -/
structure ToolSchema : Type where
  required_params : List String := []
  optional_params : List String := []
  param_patterns : List (String × String) := []
deriving DecidableEq

/-- The ToolCallEvaluator's configuration
(src/evaluation/evaluators/tool_call.py lines 80-103): the tool schema dict
(the constructor argument, or the active-schema artifact, or
DEFAULT_TOOL_SCHEMAS — whichever the constructor resolved) and the strict
mode flag. Python's re.match on a pattern string enters as the function
field matchPattern pattern value, abstracting the regex engine. -/
structure ToolCallEvaluator : Type where
  tool_schemas : List (String × ToolSchema)
  strict_mode : Bool := false
  matchPattern : String → String → Bool

/-- Deduplicated member list of the Python set
all_known_params = set(required_params + optional_params). Python iterates
this set in hash order when rendering details; the embedding keeps first-seen
order, which is membership-equivalent. -/
def setOfList (l : List String) : List String :=
  l.foldl setAdd []

/-- ToolCallEvaluator._validate_tool_call
(src/evaluation/evaluators/tool_call.py lines 109-175): an unknown tool is a
hallucination issue in strict mode only; for a known tool, one issue per
missing required parameter, per unknown parameter (strict mode only), and per
pattern-carrying parameter whose rendered value fails its regex. -/
def ToolCallEvaluator.validateToolCall (ev : ToolCallEvaluator)
    (tool_call : ToolCall) (turn_id : ℤ) : List Issue :=
  let tool_name := tool_call.tool_name
  let params := tool_call.parameters
  match dictGet ev.tool_schemas tool_name with
  | none =>
      if ev.strict_mode then
        [{ issue_type := .tool_hallucination,
           severity := .high,
           description := "Unknown tool '" ++ tool_name ++ "' - possible hallucination",
           turn_id := some turn_id,
           details := [("tool", .s tool_name),
                       ("known_tools", .ls (ev.tool_schemas.map Prod.fst))] }]
      else []
  | some schema =>
      let all_known_params := setOfList (schema.required_params ++ schema.optional_params)
      let missingIssues := (schema.required_params.filter
          (fun param => dictGet params param = none)).map (fun param =>
        { issue_type := .missing_param,
          severity := .high,
          description := "Tool '" ++ tool_name ++ "' missing required parameter: " ++ param,
          turn_id := some turn_id,
          details := [("tool", .s tool_name), ("param", .s param)],
          suggested_fix := some ("Add the '" ++ param ++ "' parameter to the " ++
            tool_name ++ " call") })
      let unknownIssues := ((params.map Prod.fst).filter
          (fun param => param ∉ all_known_params ∧ ev.strict_mode)).map (fun param =>
        { issue_type := .invalid_param,
          severity := .medium,
          description := "Tool '" ++ tool_name ++ "' has unknown parameter: " ++ param,
          turn_id := some turn_id,
          details := [("tool", .s tool_name), ("param", .s param),
                      ("known_params", .ls all_known_params)] })
      let patternIssues := schema.param_patterns.filterMap (fun pp =>
        match dictGet params pp.1 with
        | none => none
        | some value =>
            if ev.matchPattern pp.2 value then none
            else some
              { issue_type := .invalid_param,
                severity := .high,
                description := "Tool '" ++ tool_name ++ "' parameter '" ++ pp.1 ++
                  "' has invalid format: '" ++ value ++ "'",
                turn_id := some turn_id,
                details := [("tool", .s tool_name), ("param", .s pp.1),
                            ("value", .s value), ("expected_pattern", .s pp.2)],
                suggested_fix := some ("Parameter '" ++ pp.1 ++
                  "' should match pattern: " ++ pp.2) })
      missingIssues ++ unknownIssues ++ patternIssues

/-- The running state of the loop in ToolCallEvaluator._evaluate
(src/evaluation/evaluators/tool_call.py lines 179-222): the tool-call count,
the per-category issue counters and the accumulated issues. -/
structure ToolEvalAcc : Type where
  total_tool_calls : ℕ := 0
  selection_issues : ℕ := 0
  param_issues : ℕ := 0
  hallucination_issues : ℕ := 0
  execution_failures : ℕ := 0
  issues : List Issue := []
deriving DecidableEq

/-- The per-tool-call body of the _evaluate loop
(src/evaluation/evaluators/tool_call.py lines 191-222): validate, categorize
the issues into counters, then flag a failed execution when the result is a
dict with a truthy error entry. -/
def ToolCallEvaluator.processToolCall (ev : ToolCallEvaluator) (turn_id : ℤ)
    (acc : ToolEvalAcc) (tool_call : ToolCall) : ToolEvalAcc :=
  let call_issues := ev.validateToolCall tool_call turn_id
  let acc1 : ToolEvalAcc :=
    { acc with
        total_tool_calls := acc.total_tool_calls + 1,
        issues := acc.issues ++ call_issues,
        hallucination_issues := acc.hallucination_issues +
          (call_issues.filter (fun i => i.issue_type = .tool_hallucination)).length,
        selection_issues := acc.selection_issues +
          (call_issues.filter (fun i => i.issue_type = .invalid_tool)).length,
        param_issues := acc.param_issues +
          (call_issues.filter (fun i =>
            i.issue_type = .invalid_param ∨ i.issue_type = .missing_param)).length }
  match tool_call.result with
  | some (.dict (some e)) =>
      if e ≠ "" then
        { acc1 with
            execution_failures := acc1.execution_failures + 1,
            issues := acc1.issues ++
              [{ issue_type := .execution_failed,
                 severity := .high,
                 description := "Tool '" ++ tool_call.tool_name ++ "' execution failed",
                 turn_id := some turn_id,
                 details := [("tool", .s tool_call.tool_name), ("error", .s e)] }] }
      else acc1
  | _ => acc1

/-- The per-turn body of the _evaluate loop
(src/evaluation/evaluators/tool_call.py lines 187-191): non-assistant turns
are skipped, the tool calls of assistant turns are processed in order. -/
def ToolCallEvaluator.processTurn (ev : ToolCallEvaluator) (acc : ToolEvalAcc)
    (turn : Turn) : ToolEvalAcc :=
  if turn.role = .assistant then
    turn.tool_calls.foldl (ev.processToolCall turn.turn_id) acc
  else acc

/-- ToolCallEvaluator._evaluate (src/evaluation/evaluators/tool_call.py lines
177-262): run the loop over all turns; with no tool calls return the perfect
result (all four sub-scores 1.0, no issues, confidence 1.0), otherwise the
per-category scores 1 - issues/total floored at 0, with confidence 0.95. -/
def ToolCallEvaluator.evaluateCore (ev : ToolCallEvaluator)
    (conversation : Conversation) : EvaluatorResult :=
  let acc := conversation.turns.foldl ev.processTurn {}
  if acc.total_tool_calls = 0 then
    { evaluator_name := "tool_call",
      scores := [("tool_selection", 1), ("param_accuracy", 1),
                 ("no_hallucination", 1), ("execution_success", 1)],
      issues := [],
      confidence := 1,
      metadata := [("total_tool_calls", .q 0),
                   ("note", .s "No tool calls in conversation")] }
  else
    let total : ℚ := acc.total_tool_calls
    { evaluator_name := "tool_call",
      scores := [("tool_selection", max 0 (1 - acc.selection_issues / total)),
                 ("param_accuracy", max 0 (1 - acc.param_issues / total)),
                 ("no_hallucination", max 0 (1 - acc.hallucination_issues / total)),
                 ("execution_success", max 0 (1 - acc.execution_failures / total))],
      issues := acc.issues,
      confidence := 19 / 20,
      metadata := [("total_tool_calls", .q acc.total_tool_calls),
                   ("selection_issues", .q acc.selection_issues),
                   ("param_issues", .q acc.param_issues),
                   ("hallucination_issues", .q acc.hallucination_issues),
                   ("execution_failures", .q acc.execution_failures)] }

/-- C2: for every evaluator and every conversation, when the internal logic
_evaluate raises any exception, the template method evaluate returns a
degraded EvaluatorResult with an empty scores map, an empty issues list,
confidence 0.0, and the error (with the measured latency) recorded in
metadata; the exception is never propagated (the embedded evaluate is total
with return type EvaluatorResult). -/
theorem evaluator_error_yields_degraded_result (name : String)
    (inner : Conversation → Except String EvaluatorResult) (lat : ℚ)
    (conv : Conversation) (e : String) (h : inner conv = .error e) :
    Evaluator.evaluate name inner lat conv =
      { evaluator_name := name,
        scores := [],
        issues := [],
        confidence := 0,
        metadata := [("error", .s e), ("latency_ms", .q lat)],
        latency_ms := some lat } := by
  simp [Evaluator.evaluate, h]

theorem evaluator_error_yields_degraded_result_witness :
    Evaluator.evaluate "heuristic" (fun _ => .error "boom") 2 ⟨"c1", [], []⟩ =
      { evaluator_name := "heuristic",
        scores := [],
        issues := [],
        confidence := 0,
        metadata := [("error", .s "boom"), ("latency_ms", .q 2)],
        latency_ms := some 2 } :=
  evaluator_error_yields_degraded_result "heuristic" (fun _ => .error "boom") 2
    ⟨"c1", [], []⟩ "boom" rfl

/-- C5: clustering is deterministic given fixed input order and fixed
embeddings: two runs of cluster_issues on equal occurrence lists (each item
carrying its precomputed embedding, as the ClusterItem type does) produce
identical cluster lists, hence the same partition in the same order. -/
theorem cluster_issues_deterministic {d : ℕ} (t : ℚ)
    (xs ys : List (ClusterItem d)) (h : xs = ys) :
    cluster_issues t xs = cluster_issues t ys := by
  rw [h]

theorem cluster_issues_deterministic_witness :
    cluster_issues (7 / 10)
        [({ conversation_id := "c1", issue_type := "missing_param",
            description := "d1", embedding := fun _ => 1 } : ClusterItem 2)] =
      cluster_issues (7 / 10)
        [({ conversation_id := "c1", issue_type := "missing_param",
            description := "d1", embedding := fun _ => 1 } : ClusterItem 2)] :=
  cluster_issues_deterministic (7 / 10) _ _ rfl

/-- C6 counterexample: the embedding fingerprint built by
construct_embedding_string is not the bare string category, separator,
description: the source prefixes Type: and Issue: around them. -/
theorem embedding_string_not_bare_category_description :
    construct_embedding_string "missing_param" "tool missing parameter" "ctx" ≠
      "missing_param" ++ " | " ++ "tool missing parameter" := by
  decide

/-- C6 amended: for every Issue processed by the flattener, the occurrence's
embedding-ready fingerprint is exactly the string Type:, the category value,
the separator, Issue:, and the description — built from the category and
description fields alone, incorporating no turn content or other
instance-specific values. -/
theorem flatten_issue_embedding_string_form (evaluation : EvaluationResult)
    (conversation : Conversation) (item : FlatIssue)
    (h : item ∈ flatten_issue evaluation conversation) :
    item.embedding_string = "Type: " ++ item.issue_type ++ " | Issue: " ++ item.description := by
  simp only [flatten_issue, List.mem_map] at h
  obtain ⟨issue, _, rfl⟩ := h
  rfl

theorem flatten_issue_embedding_string_form_witness :
    ({ issue_type := "missing_param",
       severity := "high",
       description := "tool missing parameter",
       turn_id := none,
       conversation_id := "c1",
       context_content := "",
       suggested_fix := none,
       embedding_string := "Type: missing_param | Issue: tool missing parameter" } :
        FlatIssue).embedding_string =
      "Type: " ++ "missing_param" ++ " | Issue: " ++ "tool missing parameter" :=
  flatten_issue_embedding_string_form
    { conversation_id := "c1",
      issues := [{ issue_type := .missing_param, severity := .high,
                   description := "tool missing parameter" }] }
    { conversation_id := "c1", turns := [] } _ (by decide)

/-- C7 counterexample: when no configured evaluator resolves from the
registry, evaluate_conversation returns the completed result without calling
save_evaluation — the persisted-evaluations log of the run is empty even
though a result is returned. -/
theorem no_strategies_result_not_persisted :
    (evaluateConversation [] "run1" { conversation_id := "c1", turns := [] }).2 = [] ∧
    (evaluateConversation [] "run1" { conversation_id := "c1", turns := [] }).1.status =
      "completed" :=
  ⟨rfl, rfl⟩

/-- C7 amended: evaluate_conversation always returns a result with status
completed; the result is persisted via the repository (save_evaluation is
called with it) exactly when at least one configured evaluator was resolved —
with no resolved evaluator the completed result is returned without being
persisted. -/
theorem evaluate_conversation_completed_and_persistence
    (strategies : List Strategy) (run_id : String) (conversation : Conversation) :
    (evaluateConversation strategies run_id conversation).1.status = "completed" ∧
    (evaluateConversation strategies run_id conversation).2 =
      (if strategies.isEmpty then []
       else [(evaluateConversation strategies run_id conversation).1]) := by
  cases strategies with
  | nil => exact ⟨rfl, rfl⟩
  | cons s rest => exact ⟨rfl, rfl⟩

/-- C8: for every RegressionReport produced by a regression run, simulated
(run_regression) or real (run_real_regression), the overall_improvement flag
equals the disjunction of the is_improvement flags of its ScoreDeltas; in
both modes each is_improvement flag is the strict comparison of the reported
means, so improvement is reported only when some metric's new mean strictly
exceeds its baseline mean. -/
theorem regression_overall_improvement_is_or
    (getEval : String → Option EvaluationResult)
    (evalConv : Conversation → EvaluationResult) (run_id : String)
    (proposal : ImprovementProposal) (test_set : List Conversation)
    (prompts : List String) (base_avg updated_avg : ℚ) :
    ((run_regression getEval evalConv run_id proposal test_set).overall_improvement =
      (run_regression getEval evalConv run_id proposal test_set).score_deltas.any
        ScoreDelta.is_improvement) ∧
    ((runRealRegressionReport run_id proposal prompts base_avg updated_avg).overall_improvement =
      (runRealRegressionReport run_id proposal prompts base_avg updated_avg).score_deltas.any
        ScoreDelta.is_improvement) := by
  constructor
  · rfl
  · simp [runRealRegressionReport, List.any]

/-- Helper: computeAggregateScore leaves the evaluations map unchanged and
sets aggregate_score to the mean of all sub-scores, leaving it unchanged when
there are none. -/
theorem computeAggregateScore_snd (r : EvaluationResult) :
    ((computeAggregateScore r).2).evaluations = r.evaluations ∧
    ((computeAggregateScore r).2).aggregate_score =
      (if allScores r.evaluations = [] then r.aggregate_score
       else (allScores r.evaluations).sum / (allScores r.evaluations).length) := by
  unfold computeAggregateScore
  by_cases h1 : r.evaluations = []
  · simp [h1, allScores]
  · by_cases h2 : allScores r.evaluations = [] <;> simp [h1, h2]

/-- C1: for every EvaluationResult produced by the orchestrator's
evaluate_conversation, aggregate_score equals the arithmetic mean of all
sub-score values collected across all evaluator results in evaluations, and
0.0 when there are no evaluator results or no evaluator reported any
sub-score. -/
theorem evaluate_conversation_aggregate_is_mean (strategies : List Strategy)
    (run_id : String) (conversation : Conversation) :
    (evaluateConversation strategies run_id conversation).1.aggregate_score =
      (if allScores (evaluateConversation strategies run_id conversation).1.evaluations = []
       then 0
       else (allScores (evaluateConversation strategies run_id conversation).1.evaluations).sum /
         (allScores (evaluateConversation strategies run_id conversation).1.evaluations).length) := by
  cases strategies with
  | nil => simp [evaluateConversation, allScores]
  | cons s rest =>
      simp only [evaluateConversation, List.isEmpty_cons, Bool.false_eq_true, if_false,
        aggregateIssues]
      exact (computeAggregateScore_snd _).2.trans
        (by rw [(computeAggregateScore_snd _).1])

/-- Helper: the _evaluate loop of the tool-call evaluator is the identity on
its accumulator over turns that carry no assistant tool calls. -/
theorem foldl_processTurn_no_calls (ev : ToolCallEvaluator)
    (l : List Turn) (acc : ToolEvalAcc)
    (h : ∀ turn ∈ l, turn.role = .assistant → turn.tool_calls = []) :
    l.foldl ev.processTurn acc = acc := by
  induction l generalizing acc with
  | nil => rfl
  | cons t ts ih =>
      have hstep : ev.processTurn acc t = acc := by
        unfold ToolCallEvaluator.processTurn
        by_cases hr : t.role = .assistant
        · rw [if_pos hr, h t (List.mem_cons_self t ts) hr]
          rfl
        · rw [if_neg hr]
      rw [List.foldl_cons, hstep]
      exact ih acc (fun turn hm => h turn (List.mem_cons_of_mem t hm))

/-- C10: for every conversation containing no tool calls in any assistant
turn, the tool-call evaluator's _evaluate returns all four sub-scores equal
to 1.0, an empty issue list, and confidence 1.0. -/
theorem toolcall_no_tool_calls_perfect (ev : ToolCallEvaluator)
    (conversation : Conversation)
    (h : ∀ turn ∈ conversation.turns, turn.role = .assistant → turn.tool_calls = []) :
    ev.evaluateCore conversation =
      { evaluator_name := "tool_call",
        scores := [("tool_selection", 1), ("param_accuracy", 1),
                   ("no_hallucination", 1), ("execution_success", 1)],
        issues := [],
        confidence := 1,
        metadata := [("total_tool_calls", .q 0),
                     ("note", .s "No tool calls in conversation")] } := by
  unfold ToolCallEvaluator.evaluateCore
  rw [foldl_processTurn_no_calls ev conversation.turns {} h]
  rfl

theorem toolcall_no_tool_calls_perfect_witness :
    ToolCallEvaluator.evaluateCore ⟨[], false, fun _ _ => true⟩
        { conversation_id := "c1",
          turns := [{ turn_id := 1, role := .user, content := "hi",
                      tool_calls := [{ tool_name := "t" }] },
                    { turn_id := 2, role := .assistant, content := "ok" }] } =
      { evaluator_name := "tool_call",
        scores := [("tool_selection", 1), ("param_accuracy", 1),
                   ("no_hallucination", 1), ("execution_success", 1)],
        issues := [],
        confidence := 1,
        metadata := [("total_tool_calls", .q 0),
                     ("note", .s "No tool calls in conversation")] } :=
  toolcall_no_tool_calls_perfect ⟨[], false, fun _ _ => true⟩ _ (by decide)

/-- Helper: the new member count after _add_to_cluster is one more than
before. -/
theorem addToCluster_ids_length {d : ℕ} (c : EmbCluster d) (x : ClusterItem d) :
    (addToCluster c x).conversation_ids.length = c.conversation_ids.length + 1 := by
  simp [addToCluster]

/-- Helper invariant for the running mean: folding _add_to_cluster over any
item list turns a cluster whose mean is S / n into one whose mean is the sum
of S and the added embeddings over the new member count. -/
theorem foldl_addToCluster_mean {d : ℕ} (xs : List (ClusterItem d)) :
    ∀ (c : EmbCluster d) (S : Fin d → ℚ),
      c.conversation_ids.length ≠ 0 →
      (∀ i, c.mean_embedding i = S i / (c.conversation_ids.length : ℚ)) →
      (xs.foldl addToCluster c).conversation_ids.length =
        c.conversation_ids.length + xs.length ∧
      ∀ i, (xs.foldl addToCluster c).mean_embedding i =
        (S i + (xs.map (fun x => x.embedding i)).sum) /
          ((c.conversation_ids.length : ℚ) + xs.length) := by
  induction xs with
  | nil =>
      intro c S hn hm
      refine ⟨by simp, fun i => ?_⟩
      simp [hm i]
  | cons x rest ih =>
      intro c S hn hm
      have hlen : (addToCluster c x).conversation_ids.length =
          c.conversation_ids.length + 1 := addToCluster_ids_length c x
      have hq : ((c.conversation_ids.length : ℚ)) ≠ 0 := by
        exact_mod_cast hn
      have hmean : ∀ i, (addToCluster c x).mean_embedding i =
          (S i + x.embedding i) / ((addToCluster c x).conversation_ids.length : ℚ) := by
        intro i
        have hcast : (((addToCluster c x).conversation_ids.length : ℚ)) =
            (c.conversation_ids.length : ℚ) + 1 := by
          rw [hlen]
          push_cast
          ring
        simp only [addToCluster] at hcast ⊢
        rw [hcast, hm i]
        field_simp
      obtain ⟨hl, hμ⟩ := ih (addToCluster c x) (fun i => S i + x.embedding i)
        (by rw [hlen]; omega) hmean
      constructor
      · rw [List.foldl_cons, hl, hlen, List.length_cons]
        omega
      · intro i
        rw [List.foldl_cons, hμ i, hlen]
        simp only [List.map_cons, List.sum_cons, List.length_cons]
        push_cast
        ring_nf

/-- C3: on assignment the cluster's stored mean embedding is updated
component-wise to (old_mean * (n - 1) + v) / n where n is the new member
count; consequently after any sequence of assignments starting from the
singleton cluster the mean embedding equals the exact arithmetic mean of all
members' raw embedding vectors (the embedding computes in exact rationals,
so the equality is exact rather than within floating-point tolerance). -/
theorem cluster_mean_is_running_average {d : ℕ} (c : EmbCluster d)
    (item : ClusterItem d) (x0 : ClusterItem d) (xs : List (ClusterItem d)) :
    ((addToCluster c item).mean_embedding = fun i =>
      (c.mean_embedding i * (((c.conversation_ids.length : ℚ) + 1) - 1) +
        item.embedding i) / ((c.conversation_ids.length : ℚ) + 1)) ∧
    ((xs.foldl addToCluster (newClusterOf x0)).mean_embedding = fun i =>
      ((x0 :: xs).map (fun x => x.embedding i)).sum / ((xs.length : ℚ) + 1)) := by
  constructor
  · funext i
    have hcast : (((addToCluster c item).conversation_ids.length : ℚ)) =
        (c.conversation_ids.length : ℚ) + 1 := by
      rw [addToCluster_ids_length]
      push_cast
      ring
    simp only [addToCluster] at hcast ⊢
    rw [hcast]
  · have hn1 : (newClusterOf x0).conversation_ids.length = 1 := rfl
    have base := foldl_addToCluster_mean xs (newClusterOf x0) x0.embedding
      (by rw [hn1]; omega) (by intro i; rw [hn1]; simp [newClusterOf])
    funext i
    rw [base.2 i, hn1]
    simp only [List.map_cons, List.sum_cons]
    push_cast
    ring_nf

/-- Helper: the dot product of a not-all-zero rational vector with itself is
positive. -/
theorem dotQ_self_pos {d : ℕ} (v : Fin d → ℚ) (h : isZeroVec v = false) :
    0 < dotQ v v := by
  have hex : ∃ i, v i ≠ 0 := by
    have := of_decide_eq_false h
    push_neg at this
    exact this
  obtain ⟨i, hi⟩ := hex
  exact Finset.sum_pos' (fun j _ => mul_self_nonneg (v j))
    ⟨i, Finset.mem_univ i, mul_self_pos.mpr hi⟩

/-- Faithfulness of the executable similarity test: for every positive
threshold t, cosSimGE v1 v2 t holds exactly when the real-valued
cosine_similarity of the source is at least t. This justifies embedding the
comparison of clustering.py line 41 in square-root-free rational
arithmetic. -/
theorem cosSimGE_iff {d : ℕ} (v1 v2 : Fin d → ℚ) (t : ℚ) (ht : 0 < t) :
    (cosSimGE v1 v2 t = true) ↔ ((t : ℝ) ≤ cosine_similarity v1 v2) := by
  have htR : (0 : ℝ) < (t : ℝ) := by exact_mod_cast ht
  unfold cosSimGE cosine_similarity
  by_cases hz : (isZeroVec v1 || isZeroVec v2) = true
  · rw [if_pos hz, if_pos hz]
    simp only [decide_eq_true_eq]
    constructor
    · intro hle
      exact absurd hle (not_le.mpr ht)
    · intro hle
      exact absurd hle (not_le.mpr htR)
  · have h12 := Bool.or_eq_false_iff.mp (Bool.not_eq_true _ |>.mp hz)
    have hA : 0 < dotQ v1 v1 := dotQ_self_pos v1 h12.1
    have hB : 0 < dotQ v2 v2 := dotQ_self_pos v2 h12.2
    have hAR : (0 : ℝ) < ((dotQ v1 v1 : ℚ) : ℝ) := by exact_mod_cast hA
    have hBR : (0 : ℝ) < ((dotQ v2 v2 : ℚ) : ℝ) := by exact_mod_cast hB
    have hsA : (0 : ℝ) < Real.sqrt ((dotQ v1 v1 : ℚ) : ℝ) := Real.sqrt_pos.mpr hAR
    have hsB : (0 : ℝ) < Real.sqrt ((dotQ v2 v2 : ℚ) : ℝ) := Real.sqrt_pos.mpr hBR
    rw [if_neg hz, if_neg hz, le_div_iff (by positivity)]
    have hkey : (t : ℝ) * (Real.sqrt ((dotQ v1 v1 : ℚ) : ℝ) *
        Real.sqrt ((dotQ v2 v2 : ℚ) : ℝ)) =
        Real.sqrt ((t : ℝ) ^ 2 * (((dotQ v1 v1 : ℚ) : ℝ) * ((dotQ v2 v2 : ℚ) : ℝ))) := by
      rw [Real.sqrt_mul (by positivity), Real.sqrt_mul hAR.le,
        Real.sqrt_sq htR.le]
    simp only [decide_eq_true_eq]
    constructor
    · rintro ⟨hD0, hsq⟩
      have hD0R : (0 : ℝ) ≤ ((dotQ v1 v2 : ℚ) : ℝ) := by exact_mod_cast hD0
      have hsqR : (t : ℝ) ^ 2 * (((dotQ v1 v1 : ℚ) : ℝ) * ((dotQ v2 v2 : ℚ) : ℝ)) ≤
          ((dotQ v1 v2 : ℚ) : ℝ) ^ 2 := by exact_mod_cast hsq
      calc (t : ℝ) * (Real.sqrt _ * Real.sqrt _)
          = Real.sqrt ((t : ℝ) ^ 2 * (((dotQ v1 v1 : ℚ) : ℝ) * ((dotQ v2 v2 : ℚ) : ℝ))) :=
            hkey
        _ ≤ Real.sqrt (((dotQ v1 v2 : ℚ) : ℝ) ^ 2) := Real.sqrt_le_sqrt hsqR
        _ = ((dotQ v1 v2 : ℚ) : ℝ) := Real.sqrt_sq hD0R
    · intro hle
      have hprod : (0 : ℝ) < (t : ℝ) * (Real.sqrt ((dotQ v1 v1 : ℚ) : ℝ) *
          Real.sqrt ((dotQ v2 v2 : ℚ) : ℝ)) := by positivity
      have hD0R : (0 : ℝ) ≤ ((dotQ v1 v2 : ℚ) : ℝ) := le_trans hprod.le hle
      refine ⟨by exact_mod_cast hD0R, ?_⟩
      have hsq : ((t : ℝ) * (Real.sqrt ((dotQ v1 v1 : ℚ) : ℝ) *
          Real.sqrt ((dotQ v2 v2 : ℚ) : ℝ))) ^ 2 ≤ ((dotQ v1 v2 : ℚ) : ℝ) ^ 2 :=
        pow_le_pow_left hprod.le hle 2
      have hexp : ((t : ℝ) * (Real.sqrt ((dotQ v1 v1 : ℚ) : ℝ) *
          Real.sqrt ((dotQ v2 v2 : ℚ) : ℝ))) ^ 2 =
          (t : ℝ) ^ 2 * (((dotQ v1 v1 : ℚ) : ℝ) * ((dotQ v2 v2 : ℚ) : ℝ)) := by
        rw [mul_pow, mul_pow, Real.sq_sqrt hAR.le, Real.sq_sqrt hBR.le]
      rw [hexp] at hsq
      exact_mod_cast hsq

/-- C4: the cosine similarity of an all-zero vector against anything is 0.0
(the guard in the source returns before any division by a zero norm), and
during clustering an occurrence whose embedding is the all-zero vector never
passes a positive similarity threshold against any existing cluster, so it
always opens a new singleton cluster at the end of the cluster list. -/
theorem zero_embedding_never_merges {d : ℕ} (t : ℚ) (ht : 0 < t)
    (item : ClusterItem d) (h : isZeroVec item.embedding = true) :
    (∀ w : Fin d → ℚ, cosine_similarity item.embedding w = 0) ∧
    (∀ clusters : List (EmbCluster d),
      assignItem t clusters item = clusters ++ [newClusterOf item]) := by
  have hsim : ∀ w : Fin d → ℚ, cosSimGE item.embedding w t = false := by
    intro w
    unfold cosSimGE
    rw [if_pos (by simp [h])]
    exact decide_eq_false (not_le.mpr ht)
  constructor
  · intro w
    unfold cosine_similarity
    rw [if_pos (by simp [h])]
  · intro clusters
    induction clusters with
    | nil => rfl
    | cons c rest ih =>
        show (if cosSimGE item.embedding c.mean_embedding t then _ else _) = _
        rw [hsim c.mean_embedding]
        simp only [Bool.false_eq_true, if_false, ih, List.cons_append]

theorem zero_embedding_never_merges_witness :
    (0 : ℚ) < 7 / 10 ∧
    ((∀ w : Fin 2 → ℚ, cosine_similarity (fun _ => (0 : ℚ)) w = 0) ∧
     (∀ clusters : List (EmbCluster 2),
        assignItem (7 / 10) clusters
            { conversation_id := "c1", issue_type := "missing_param",
              description := "d1", embedding := fun _ => 0 } =
          clusters ++ [newClusterOf
            { conversation_id := "c1", issue_type := "missing_param",
              description := "d1", embedding := fun _ => 0 }])) :=
  ⟨by norm_num, zero_embedding_never_merges (7 / 10) (by norm_num)
    { conversation_id := "c1", issue_type := "missing_param",
      description := "d1", embedding := fun _ => 0 } (by decide)⟩

/-- Helper: looking up the key just inserted returns the inserted value. -/
theorem dictGet_dictInsert_self {κ α : Type} [DecidableEq κ]
    (m : List (κ × α)) (k : κ) (v : α) :
    dictGet (dictInsert m k v) k = some v := by
  induction m with
  | nil => simp [dictInsert, dictGet]
  | cons p rest ih =>
      obtain ⟨k1, v1⟩ := p
      by_cases hk : k1 = k
      · simp [dictInsert, dictGet, hk]
      · simp [dictInsert, dictGet, hk, ih]

/-- Helper: inserting under one key does not change lookups of another. -/
theorem dictGet_dictInsert_ne {κ α : Type} [DecidableEq κ]
    (m : List (κ × α)) (k1 k : κ) (v : α) (h : k1 ≠ k) :
    dictGet (dictInsert m k1 v) k = dictGet m k := by
  induction m with
  | nil => simp [dictInsert, dictGet, h]
  | cons p rest ih =>
      obtain ⟨k2, v2⟩ := p
      by_cases hk : k2 = k1
      · simp [dictInsert, dictGet, hk, h]
      · by_cases hk2 : k2 = k
        · simp [dictInsert, dictGet, hk, hk2, Ne.symm h]
        · simp [dictInsert, dictGet, hk, hk2, ih]

/-- Helper: the simulated improvement factor stored in a shadow conversation:
the configured constant for a tool-typed proposal, and otherwise whatever the
original conversation's metadata carried (the key is untouched). -/
theorem shadow_metadata_factor (proposal : ImprovementProposal) (c : Conversation) :
    dictGet (simulateShadowConversation proposal c).metadata
        "simulated_improvement_factor" =
      (if proposal.type = .tool then some (.q simulated_improvement_factor)
       else dictGet c.metadata "simulated_improvement_factor") := by
  have ne1 : ("is_shadow" : String) ≠ "simulated_improvement_factor" := by decide
  have ne2 : ("prompt_version" : String) ≠ "simulated_improvement_factor" := by decide
  have ne3 : ("prompt_path" : String) ≠ "simulated_improvement_factor" := by decide
  have ne4 : ("tool_schema_path" : String) ≠ "simulated_improvement_factor" := by decide
  simp only [simulateShadowConversation]
  by_cases hp : proposal.type = .tool
  · simp only [hp, if_true, if_pos]
    rw [dictGet_dictInsert_self]
  · simp only [hp, if_false, if_neg hp]
    rcases h1 : dictGet proposal.metadata "prompt_path" with _ | v1 <;>
      rcases h2 : dictGet proposal.metadata "tool_schema_path" with _ | v2 <;>
      simp only [h1, h2] <;>
      [skip; split; split; (split <;> [skip; skip] <;> split)] <;>
      simp only [dictGet_dictInsert_ne _ _ _ _ ne4, dictGet_dictInsert_ne _ _ _ _ ne3,
        dictGet_dictInsert_ne _ _ _ _ ne2, dictGet_dictInsert_ne _ _ _ _ ne1]

/-- Helper: folding max over a list of copies of the seed returns the seed. -/
theorem foldl_max_const (q : ℚ) (xs : List ℚ) (h : ∀ x ∈ xs, x = q) :
    xs.foldl max q = q := by
  induction xs with
  | nil => rfl
  | cons x rest ih =>
      rw [List.foldl_cons, h x (List.mem_cons_self x rest), max_self]
      exact ih (fun y hy => h y (List.mem_cons_of_mem x hy))

/-- Helper: Python max of a nonempty constant list is the constant. -/
theorem pyMax_const (q : ℚ) (l : List ℚ) (hne : l ≠ []) (h : ∀ x ∈ l, x = q) :
    pyMax l = q := by
  cases l with
  | nil => exact absurd rfl hne
  | cons x xs =>
      unfold pyMax
      rw [h x (List.mem_cons_self x xs)]
      exact foldl_max_const q xs (fun y hy => h y (List.mem_cons_of_mem x hy))

/-- Helper: rounding with ties to even never rounds past an integer upper
bound. -/
theorem roundHalfToEven_le (q : ℚ) (n : ℤ) (h : q ≤ n) : roundHalfToEven q ≤ n := by
  have hf : ⌊q⌋ ≤ n := by
    have := Int.floor_le_floor h
    rwa [Int.floor_intCast] at this
  have hfl : (⌊q⌋ : ℚ) ≤ q := Int.floor_le q
  simp only [roundHalfToEven]
  split_ifs with h1 h2 h3
  · exact hf
  · have hlt : (⌊q⌋ : ℚ) < (n : ℚ) - 1 / 2 := by
      push_neg at h1
      linarith
    have : (⌊q⌋ : ℚ) < (n : ℚ) := by linarith
    have hint : ⌊q⌋ < n := by exact_mod_cast this
    omega
  · exact hf
  · have heq : q - ⌊q⌋ = 1 / 2 := by
      push_neg at h1 h2
      linarith
    have : (⌊q⌋ : ℚ) ≤ (n : ℚ) - 1 / 2 := by linarith
    have : (⌊q⌋ : ℚ) < (n : ℚ) := by linarith
    have hint : ⌊q⌋ < n := by exact_mod_cast this
    omega

/-- Helper: the three-place rounding of a value at most 1 is at most 1. -/
theorem pyRound3_le_one (q : ℚ) (h : q ≤ 1) : pyRound3 q ≤ 1 := by
  unfold pyRound3
  rw [div_le_one (by norm_num)]
  have hq : q * 1000 ≤ ((1000 : ℤ) : ℚ) := by push_cast; linarith
  exact_mod_cast roundHalfToEven_le (q * 1000) 1000 hq

/-- C9: in simulated regression mode, over a nonempty test set whose
conversations do not already carry a simulated-improvement tag, the reported
shadow mean of the single metric aggregate_score is the raw shadow mean
multiplied by one plus the simulated improvement factor when the proposal is
tool-typed and by exactly one (no boost) otherwise, clamped to at most 1.0
before rounding; consequently the reported shadow mean never exceeds 1.0. -/
theorem simulated_regression_boost_and_cap
    (getEval : String → Option EvaluationResult)
    (evalConv : Conversation → EvaluationResult) (run_id : String)
    (proposal : ImprovementProposal) (test_set : List Conversation)
    (hne : test_set ≠ [])
    (hfree : ∀ c ∈ test_set,
      dictGet c.metadata "simulated_improvement_factor" = none) :
    ((run_regression getEval evalConv run_id proposal test_set).score_deltas.map
        ScoreDelta.new_val =
      [pyRound3 (min 1
        (meanOr0 ((test_set.map (fun c =>
            evalConv (simulateShadowConversation proposal c))).map
          EvaluationResult.aggregate_score) *
          (1 + if proposal.type = .tool then simulated_improvement_factor else 0)))]) ∧
    (∀ delta ∈ (run_regression getEval evalConv run_id proposal test_set).score_deltas,
      delta.new_val ≤ 1) := by
  have hfac : ∀ c ∈ test_set,
      simulatedFactorOf (simulateShadowConversation proposal c) =
        (if proposal.type = .tool then simulated_improvement_factor else 0) := by
    intro c hc
    unfold simulatedFactorOf
    rw [shadow_metadata_factor]
    by_cases hp : proposal.type = .tool
    · simp [hp]
    · simp [hp, hfree c hc]
  have hboosts : (test_set.map (simulateShadowConversation proposal)).map
      simulatedFactorOf = test_set.map (fun _ =>
        if proposal.type = .tool then simulated_improvement_factor else 0) := by
    rw [List.map_map]
    exact List.map_congr_left (fun c hc => hfac c hc)
  have hbne : test_set.map (fun _ =>
      (if proposal.type = .tool then simulated_improvement_factor else 0)) ≠ [] := by
    simpa using hne
  have hmax : pyMax (test_set.map (fun _ =>
      (if proposal.type = .tool then simulated_improvement_factor else 0))) =
      (if proposal.type = .tool then simulated_improvement_factor else 0) := by
    refine pyMax_const _ _ hbne ?_
    intro x hx
    obtain ⟨c, _, rfl⟩ := List.mem_map.mp hx
    rfl
  have hdeltas : (run_regression getEval evalConv run_id proposal test_set).score_deltas.map
      ScoreDelta.new_val =
      [pyRound3 (min 1
        (meanOr0 ((test_set.map (fun c =>
            evalConv (simulateShadowConversation proposal c))).map
          EvaluationResult.aggregate_score) *
          (1 + if proposal.type = .tool then simulated_improvement_factor else 0)))] := by
    simp only [run_regression, calculateDeltas, hboosts, hmax, List.map_map]
    rw [if_neg hbne]
    rfl
  refine ⟨hdeltas, ?_⟩
  intro delta hd
  have : delta.new_val ∈ (run_regression getEval evalConv run_id proposal
      test_set).score_deltas.map ScoreDelta.new_val := List.mem_map_of_mem _ hd
  rw [hdeltas] at this
  rcases List.mem_singleton.mp this with heq
  rw [heq]
  exact pyRound3_le_one _ (min_le_left _ _)

/-- The concrete evaluation function used by the C9 witness: every
conversation scores 0.5. -/
def constHalfEval (c : Conversation) : EvaluationResult :=
  { conversation_id := c.conversation_id, aggregate_score := 1 / 2 }

/-- The concrete tool-typed proposal used by the C9 witness. -/
def toolProposal0 : ImprovementProposal :=
  { proposal_id := "p1", type := .tool }

/-- The concrete one-conversation test set used by the C9 witness. -/
def testSet0 : List Conversation :=
  [{ conversation_id := "c1", turns := [] }]

theorem simulated_regression_boost_and_cap_witness :
    (testSet0 ≠ []) ∧
    (∀ c ∈ testSet0,
      dictGet c.metadata "simulated_improvement_factor" = none) ∧
    (((run_regression (fun _ => none) constHalfEval "run1" toolProposal0
        testSet0).score_deltas.map ScoreDelta.new_val =
      [pyRound3 (min 1
        (meanOr0 ((testSet0.map (fun c =>
            constHalfEval (simulateShadowConversation toolProposal0 c))).map
          EvaluationResult.aggregate_score) *
          (1 + if toolProposal0.type = .tool
            then simulated_improvement_factor else 0)))]) ∧
    (∀ delta ∈ (run_regression (fun _ => none) constHalfEval "run1" toolProposal0
        testSet0).score_deltas, delta.new_val ≤ 1)) :=
  ⟨by decide, by decide,
    simulated_regression_boost_and_cap (fun _ => none) constHalfEval "run1"
      toolProposal0 testSet0 (by decide) (by decide)⟩

end AgentEval
